import Mathlib

/-!
# Verification of the data-anonymizer pipeline

A shallow embedding of `src/main.py`: a CSV anonymizer that masks designated
columns with SHA-256 hex digests and perturbs numeric-dtype columns with
Laplace noise (scale `sensitivity / epsilon`).

Conventions of the embedding:
* Python cell values are `Value` (int, float modelled as `Rat`, string).
* The pandas `DataFrame` is `DataFrame`: an ordered list of named columns,
  each carrying a dtype tag and an ordered list of cells.
* `np.random.laplace` is modelled by an explicit stream of standard
  Laplace(0, 1) draws together with a position counter; a draw with scale
  `b` at position `i` is `b * stream i`, and `scale < 0` raises (as numpy
  does), as does float division by zero (as Python does).
* Python exceptions are `PyErr`; a `try/except` block in the source becomes
  a `match` on an `Except PyErr` value, and code outside any `try` runs in
  the `Except PyErr` monad so that an uncaught exception is observable.
-/

set_option autoImplicit false

namespace Anonymizer

/-! ## SHA-256 (the model of `hashlib.sha256(...).hexdigest()`) -/

/-- Truncation to a 32-bit word. -/
def w32 (n : Nat) : Nat := n % 4294967296

/-- Right rotation of a 32-bit word by `n` bits. -/
def rotr (n x : Nat) : Nat := w32 ((x >>> n) ||| (x <<< (32 - n)))

def ch (x y z : Nat) : Nat := (x &&& y) ^^^ ((x ^^^ 4294967295) &&& z)

def maj (x y z : Nat) : Nat := (x &&& y) ^^^ (x &&& z) ^^^ (y &&& z)

def bigSigma0 (x : Nat) : Nat := rotr 2 x ^^^ rotr 13 x ^^^ rotr 22 x

def bigSigma1 (x : Nat) : Nat := rotr 6 x ^^^ rotr 11 x ^^^ rotr 25 x

def smallSigma0 (x : Nat) : Nat := rotr 7 x ^^^ rotr 18 x ^^^ (x >>> 3)

def smallSigma1 (x : Nat) : Nat := rotr 17 x ^^^ rotr 19 x ^^^ (x >>> 10)

/-- The 64 SHA-256 round constants (in decimal). -/
def sha256K : List Nat :=
  [1116352408, 1899447441, 3049323471, 3921009573,
   961987163, 1508970993, 2453635748, 2870763221,
   3624381080, 310598401, 607225278, 1426881987,
   1925078388, 2162078206, 2614888103, 3248222580,
   3835390401, 4022224774, 264347078, 604807628,
   770255983, 1249150122, 1555081692, 1996064986,
   2554220882, 2821834349, 2952996808, 3210313671,
   3336571891, 3584528711, 113926993, 338241895,
   666307205, 773529912, 1294757372, 1396182291,
   1695183700, 1986661051, 2177026350, 2456956037,
   2730485921, 2820302411, 3259730800, 3345764771,
   3516065817, 3600352804, 4094571909, 275423344,
   430227734, 506948616, 659060556, 883997877,
   958139571, 1322822218, 1537002063, 1747873779,
   1955562222, 2024104815, 2227730452, 2361852424,
   2428436474, 2756734187, 3204031479, 3329325298]

/-- Working state: eight 32-bit words. -/
structure Sha256State where
  a : Nat
  b : Nat
  c : Nat
  d : Nat
  e : Nat
  f : Nat
  g : Nat
  h : Nat

/-- The SHA-256 initial hash value (in decimal). -/
def sha256H0 : Sha256State :=
  ⟨1779033703, 3144134277, 1013904242, 2773480762,
   1359893119, 2600822924, 528734635, 1541459225⟩

/-- The `k` bytes of `n`, big-endian. -/
def beBytes (k n : Nat) : List Nat :=
  (List.range k).map (fun i => (n >>> (8 * (k - 1 - i))) &&& 255)

/-- SHA-256 padding: append `0x80`, zeros, then the 64-bit bit length. -/
def sha256Pad (msg : List Nat) : List Nat :=
  let L := msg.length
  msg ++ [128] ++ List.replicate ((119 - L % 64) % 64) 0 ++ beBytes 8 (8 * L)

/-- Big-endian 32-bit word from the first four of a list of bytes. -/
def wordOfBytes (bs : List Nat) : Nat :=
  (bs.take 4).foldl (fun acc b => acc * 256 + b) 0

/-- The first 16 words of the message schedule for one 64-byte block. -/
def words16 (block : List Nat) : List Nat :=
  (List.range 16).map (fun i => wordOfBytes (block.drop (4 * i)))

/-- One extension step of the message schedule. -/
def scheduleStep (ws : List Nat) : List Nat :=
  ws ++ [w32 (smallSigma1 (ws.getD (ws.length - 2) 0) + ws.getD (ws.length - 7) 0
      + smallSigma0 (ws.getD (ws.length - 15) 0) + ws.getD (ws.length - 16) 0)]

/-- The full 64-word message schedule of a block. -/
def schedule (block : List Nat) : List Nat :=
  (List.range 48).foldl (fun ws _ => scheduleStep ws) (words16 block)

/-- One compression round. -/
def sha256Round (s : Sha256State) (kw : Nat × Nat) : Sha256State :=
  let t1 := w32 (s.h + bigSigma1 s.e + ch s.e s.f s.g + kw.1 + kw.2)
  let t2 := w32 (bigSigma0 s.a + maj s.a s.b s.c)
  ⟨w32 (t1 + t2), s.a, s.b, s.c, w32 (s.d + t1), s.e, s.f, s.g⟩

/-- Compression of one 64-byte block into the running state. -/
def compressBlock (s : Sha256State) (block : List Nat) : Sha256State :=
  let t := (sha256K.zip (schedule block)).foldl sha256Round s
  ⟨w32 (s.a + t.a), w32 (s.b + t.b), w32 (s.c + t.c), w32 (s.d + t.d),
   w32 (s.e + t.e), w32 (s.f + t.f), w32 (s.g + t.g), w32 (s.h + t.h)⟩

/-- The 64-byte blocks of a padded message. -/
def blocks (padded : List Nat) : List (List Nat) :=
  (List.range (padded.length / 64)).map (fun i => (padded.drop (64 * i)).take 64)

/-- The 32 digest bytes of a state. -/
def stateBytes (s : Sha256State) : List Nat :=
  beBytes 4 s.a ++ beBytes 4 s.b ++ beBytes 4 s.c ++ beBytes 4 s.d ++
  beBytes 4 s.e ++ beBytes 4 s.f ++ beBytes 4 s.g ++ beBytes 4 s.h

/-- SHA-256 of a byte sequence, as 32 digest bytes. -/
def sha256Bytes (msg : List Nat) : List Nat :=
  stateBytes ((blocks (sha256Pad msg)).foldl compressBlock sha256H0)

/-- The lowercase hexadecimal digits. -/
def hexChars : List Char := "0123456789abcdef".data

def hexDigit (n : Nat) : Char := hexChars.getD (n % 16) '0'

/-- The two hex characters of one byte. -/
def byteHex (b : Nat) : List Char := [hexDigit (b / 16), hexDigit b]

/-- Model of `hexdigest()`: the digest bytes rendered as lowercase hex. -/
def hexdigest (bytes : List Nat) : String := ⟨bytes.flatMap byteHex⟩

/-- UTF-8 encoding of one scalar value (Python `str.encode()`). -/
def utf8EncodeCharBytes (c : Char) : List Nat :=
  let n := c.toNat
  if n < 128 then [n]
  else if n < 2048 then [192 + n / 64, 128 + n % 64]
  else if n < 65536 then [224 + n / 4096, 128 + (n / 64) % 64, 128 + n % 64]
  else [240 + n / 262144, 128 + (n / 4096) % 64, 128 + (n / 64) % 64, 128 + n % 64]

/-- UTF-8 bytes of a string. -/
def utf8Bytes (s : String) : List Nat := s.data.flatMap utf8EncodeCharBytes

/-- Model of `hash_data`: SHA-256 hex digest of the UTF-8 encoding of a string
(`hashlib.sha256(input_string.encode()).hexdigest()`). -/
def hash_data (input_string : String) : String :=
  hexdigest (sha256Bytes (utf8Bytes input_string))

/-! ## Data model: cell values, columns, dataframes -/

/-- A Python cell value: an int, a float (modelled as a rational), or a
string. -/
inductive Value where
  | vInt (n : Int)
  | vFloat (q : Rat)
  | vStr (s : String)
  deriving DecidableEq, Repr

/-- Python `str(x)` on a cell value. The float case is a deterministic
textual rendering; its exact format never matters below. -/
def pyStr : Value → String
  | .vInt n => toString n
  | .vFloat q => toString q
  | .vStr s => s

/-- Whether a value is numeric (an int or a float). -/
def Value.isNum : Value → Bool
  | .vInt _ => true
  | .vFloat _ => true
  | .vStr _ => false

/-- The numeric content of a value (`0` for strings; only used under
`isNum`). -/
def Value.toRat : Value → Rat
  | .vInt n => (n : Rat)
  | .vFloat q => q
  | .vStr _ => 0

/-- A pandas column dtype: integer, float, or object. -/
inductive Dtype where
  | intD
  | floatD
  | objectD
  deriving DecidableEq, Repr

/-- Whether a dtype is numeric (`pd.api.types.is_numeric_dtype`). -/
def Dtype.isNumeric : Dtype → Bool
  | .intD => true
  | .floatD => true
  | .objectD => false

/-- pandas dtype inference for a freshly assigned series of values. -/
def inferDtype (cells : List Value) : Dtype :=
  if cells.isEmpty then .objectD
  else if cells.all (fun v => match v with | .vInt _ => true | _ => false) then .intD
  else if cells.all Value.isNum then .floatD
  else .objectD

/-- A named column: a dtype tag and an ordered list of cells. -/
structure Column where
  name : String
  dtype : Dtype
  cells : List Value
  deriving DecidableEq, Repr

/-- A dataframe: an ordered list of named columns. -/
structure DataFrame where
  cols : List Column
  deriving DecidableEq, Repr

/-- Model of `df.columns`: the column names in order. -/
def DataFrame.colNames (df : DataFrame) : List String := df.cols.map Column.name

/-- Model of `df[name]`: the first column with the given name, if any. -/
def DataFrame.find (df : DataFrame) (name : String) : Option Column :=
  df.cols.find? (fun c => c.name = name)

/-- Model of `df[name] = series`: replace the cells (and re-infer the dtype) of every
column with the given name. In this pipeline it is only used on names already
present. -/
def DataFrame.set (df : DataFrame) (name : String) (cells : List Value) : DataFrame :=
  ⟨df.cols.map (fun c => if c.name = name then ⟨c.name, inferDtype cells, cells⟩ else c)⟩

/-! ## Errors and randomness -/

/-- The Python exceptions this program can raise. -/
inductive PyErr where
  | keyError (col : String)
  | typeError
  | zeroDivisionError
  | valueError (msg : String)
  deriving DecidableEq, Repr

/-- The state of `np.random`: an infinite stream of independent standard
Laplace(0, 1) draws and the position of the next draw. A Laplace(0, b)
sample is `b` times a standard draw. -/
structure Rng where
  stream : Nat → Rat
  pos : Nat

/-- Consume one draw. -/
def Rng.next (rng : Rng) : Rng := ⟨rng.stream, rng.pos + 1⟩

/-- The fixed sensitivity (the default `sensitivity=1` of `add_noise`). -/
def sensitivity : Rat := 1

/-! ## The pipeline operations of `main.py` -/

/-- Model of `add_noise(value, epsilon)`: `scale = sensitivity / epsilon` (Python
raises `ZeroDivisionError` on `epsilon == 0`), one Laplace draw with that
scale (numpy raises `ValueError` on a negative scale), then `value + noise`
(`TypeError` when `value` is a string). -/
def add_noise (value : Value) (epsilon : Rat) (rng : Rng) : Except PyErr Value × Rng :=
  if epsilon = 0 then (.error .zeroDivisionError, rng)
  else
    let scale := sensitivity / epsilon
    if scale < 0 then (.error (.valueError "scale < 0"), rng)
    else
      let noise := scale * rng.stream rng.pos
      match value with
      | .vInt n => (.ok (.vFloat ((n : Rat) + noise)), rng.next)
      | .vFloat q => (.ok (.vFloat (q + noise)), rng.next)
      | .vStr _ => (.error .typeError, rng.next)

/-- Model of `df[column].apply(lambda x: add_noise(x, epsilon))`: the whole new
series is computed before any assignment; the first failing cell aborts the
series (draws already consumed stay consumed). -/
def applyNoise (epsilon : Rat) : List Value → Rng → Except PyErr (List Value) × Rng
  | [], rng => (.ok [], rng)
  | v :: vs, rng =>
    match add_noise v epsilon rng with
    | (.error e, rng1) => (.error e, rng1)
    | (.ok v1, rng1) =>
      match applyNoise epsilon vs rng1 with
      | (.error e, rng2) => (.error e, rng2)
      | (.ok vs1, rng2) => (.ok (v1 :: vs1), rng2)

/-- Model of `create_noisy_data(df, column, epsilon)`: apply noise to the column
inside `try/except`; on failure print a diagnostic and leave `df`
untouched. Returns the dataframe, the RNG, and the printed messages. -/
def create_noisy_data (df : DataFrame) (column : String) (epsilon : Rat) (rng : Rng) :
    DataFrame × Rng × List String :=
  match df.find column with
  | none => (df, rng, [s!"Error applying noise to column {column}: " ++ "KeyError"])
  | some col =>
    match applyNoise epsilon col.cells rng with
    | (.error e, rng1) =>
      (df, rng1, [s!"Error applying noise to column {column}: " ++ reprStr e])
    | (.ok cells1, rng1) => (df.set column cells1, rng1, [])

/-- The masked series of a column:
`df[column].apply(lambda x: hash_data(str(x)))`. -/
def maskCell (x : Value) : Value := .vStr (hash_data (pyStr x))

/-- Model of `mask_data(df, columns)`: for each listed column, hash every cell inside
a per-column `try/except`; a missing column raises `KeyError` on
`df[column]`, which is caught and printed, and the loop continues. -/
def mask_data (df : DataFrame) : List String → DataFrame × List String
  | [] => (df, [])
  | column :: rest =>
    match df.find column with
    | none =>
      let r := mask_data df rest
      (r.1, (s!"Error hashing column {column}: " ++ "KeyError") :: r.2)
    | some col => mask_data (df.set column (col.cells.map maskCell)) rest

/-- Model of `is_numeric_column(df, column)`: `df[column]` (raising `KeyError` when
absent, though callers only pass existing names), then
`pd.api.types.is_numeric_dtype` on it — a dtype check, not a value check. -/
def is_numeric_column (df : DataFrame) (column : String) : Except PyErr Bool :=
  match df.find column with
  | none => .error (.keyError column)
  | some col => .ok col.dtype.isNumeric

/-- The noising loop of `anonymize_csv`:
`for column in df.columns: if is_numeric_column(df, column): create_noisy_data(...)`.
The `is_numeric_column` call is outside any `try`, so its exceptions would
escape. -/
def noiseLoop (names : List String) (df : DataFrame) (epsilon : Rat) (rng : Rng)
    (msgs : List String) : Except PyErr (DataFrame × Rng × List String) :=
  match names with
  | [] => .ok (df, rng, msgs)
  | column :: rest =>
    match is_numeric_column df column with
    | .error e => .error e
    | .ok true =>
      let r := create_noisy_data df column epsilon rng
      noiseLoop rest r.1 epsilon r.2.1 (msgs ++ r.2.2)
    | .ok false => noiseLoop rest df epsilon rng msgs

/-- The outcome of `pd.read_csv(input_file)`. -/
inductive ReadOutcome where
  | notFound
  | parseError
  | otherError (msg : String)
  | ok (df : DataFrame)

/-- The result of a completed run: everything printed, and the written
output file (path and table), if the writer ran and succeeded. -/
structure RunResult where
  messages : List String
  written : Option (String × DataFrame)
  rng : Rng

/-- Model of `anonymize_csv(input_file, output_file, mask_columns, epsilon)`.
`env` gives `pd.read_csv`'s outcome per path and `writeErr` the failure of
`df.to_csv`, if any. The result is in `Except PyErr`: an uncaught exception
anywhere in the body would surface as `.error`. -/
def anonymize_csv (env : String → ReadOutcome) (input_file output_file : String)
    (mask_columns : List String) (epsilon : Rat) (rng : Rng)
    (writeErr : Option String) : Except PyErr RunResult :=
  match env input_file with
  | .notFound => .ok ⟨[s!"Error: The file {input_file} was not found."], none, rng⟩
  | .parseError => .ok ⟨["Error: File could not be parsed."], none, rng⟩
  | .otherError m =>
    .ok ⟨[s!"An unexpected error occurred while reading the file: {m}"], none, rng⟩
  | .ok df =>
    let masked := mask_data df mask_columns
    match noiseLoop masked.1.colNames masked.1 epsilon rng [] with
    | .error e => .error e
    | .ok noised =>
      match writeErr with
      | some m =>
        .ok ⟨masked.2 ++ noised.2.2 ++ [s!"Error writing to file {output_file}: {m}"],
          none, noised.2.1⟩
      | none =>
        .ok ⟨masked.2 ++ noised.2.2 ++ [s!"Anonymized data written to {output_file}"],
          some (output_file, noised.1), noised.2.1⟩

/-- The parsed CLI arguments of `main()`: two required paths, a required
mask list, and `--epsilon` parsed by `float` with default `1.0` — argparse
performs no positivity check on it. -/
structure Args where
  input_file : String
  output_file : String
  mask : List String
  epsilon : Rat

/-- Model of `main()`: parse arguments and call `anonymize_csv` — with no validation
of `epsilon` between parsing and the call. -/
def main (env : String → ReadOutcome) (args : Args) (rng : Rng)
    (writeErr : Option String) : Except PyErr RunResult :=
  anonymize_csv env args.input_file args.output_file args.mask args.epsilon rng writeErr

/-! ## Specification helpers -/

/-- The cells of a successfully noised column: cell `i` becomes
`v + (sensitivity / epsilon) * d` where `d` is the standard Laplace draw at
stream position `p + i` — one fresh draw per cell. -/
def noisedFrom (epsilon : Rat) (stream : Nat → Rat) : Nat → List Value → List Value
  | _, [] => []
  | p, v :: vs =>
    .vFloat (v.toRat + (sensitivity / epsilon) * stream p) :: noisedFrom epsilon stream (p + 1) vs

/-- How an output cell may relate to the input cell at the same row index:
unchanged, masked, or numerically perturbed. -/
def cellFrom (v v' : Value) : Prop :=
  v' = v ∨ v' = maskCell v ∨ ∃ q : Rat, v' = .vFloat (v.toRat + q)

/-! ## Concrete fixtures (used by the witnesses) -/

/-- A deterministic RNG fixture: every standard draw is `0`. -/
def rngEx : Rng := ⟨fun _ => 0, 0⟩

/-- The table of end-to-end scenario 1: columns `id,name,age`, one row
`(1, "Alice", 30)`. -/
def dfEx : DataFrame :=
  ⟨[⟨"id", .intD, [.vInt 1]⟩, ⟨"name", .objectD, [.vStr "Alice"]⟩,
    ⟨"age", .intD, [.vInt 30]⟩]⟩

/-- A filesystem in which every path reads as `dfEx`. -/
def envEx : String → ReadOutcome := fun _ => .ok dfEx

/-- A filesystem with no files. -/
def envMissing : String → ReadOutcome := fun _ => .notFound

/-- A one-column numeric table. -/
def dfSmall : DataFrame := ⟨[⟨"id", .intD, [.vInt 1]⟩]⟩

/-- A filesystem in which every path reads as `dfSmall`. -/
def envSmall : String → ReadOutcome := fun _ => .ok dfSmall

/-! ## Digest shape: the hex digest is always 64 lowercase hex characters -/

theorem beBytes_length (k n : Nat) : (beBytes k n).length = k := by
  simp [beBytes]

theorem stateBytes_length (s : Sha256State) : (stateBytes s).length = 32 := by
  simp [stateBytes, beBytes_length]

theorem sha256Bytes_length (msg : List Nat) : (sha256Bytes msg).length = 32 :=
  stateBytes_length _

theorem flatMap_byteHex_length (l : List Nat) :
    (l.flatMap byteHex).length = 2 * l.length := by
  induction l with
  | nil => simp
  | cons b rest ih => simp [byteHex, ih]; omega

theorem hash_data_length (s : String) : (hash_data s).length = 64 := by
  show (String.mk _).length = 64
  simp only [String.length, hash_data, hexdigest, flatMap_byteHex_length, sha256Bytes_length]

theorem hexDigit_mem (n : Nat) : hexDigit n ∈ hexChars := by
  have h : ∀ m, m < 16 → hexChars.getD m '0' ∈ hexChars := by decide
  exact h _ (Nat.mod_lt _ (by norm_num))

theorem hash_data_chars_hex (s : String) : ∀ ch ∈ (hash_data s).data, ch ∈ hexChars := by
  intro ch hch
  simp only [hash_data, hexdigest, List.mem_flatMap] at hch
  obtain ⟨b, _, hb⟩ := hch
  simp only [byteHex, List.mem_cons, List.mem_singleton] at hb
  rcases hb with h | h | h
  · exact h ▸ hexDigit_mem _
  · exact h ▸ hexDigit_mem _
  · cases h

/-! ## DataFrame basics -/

theorem colNames_set (df : DataFrame) (n : String) (cs : List Value) :
    (df.set n cs).colNames = df.colNames := by
  cases df with
  | mk cols =>
    simp only [DataFrame.set, DataFrame.colNames, List.map_map]
    apply List.map_congr_left
    intro c _
    by_cases hc : c.name = n <;> simp [hc]

theorem find_set_ne (df : DataFrame) (m n : String) (cs : List Value) (h : m ≠ n) :
    (df.set n cs).find m = df.find m := by
  cases df with
  | mk cols =>
    induction cols with
    | nil => rfl
    | cons c rest ih =>
      simp only [DataFrame.set, DataFrame.find, List.map_cons, List.find?_cons] at ih ⊢
      by_cases hc : c.name = n
      · have hm : ¬c.name = m := fun hcm => h (hcm ▸ hc)
        simp only [if_pos hc]
        simp only [show (decide (c.name = m)) = false from decide_eq_false hm]
        simpa using ih
      · simp only [if_neg hc]
        by_cases hm : c.name = m
        · simp [hm]
        · simp only [show (decide (c.name = m)) = false from decide_eq_false hm]
          simpa using ih

theorem find_set_self (df : DataFrame) (n : String) (cs : List Value) :
    (df.set n cs).find n = (df.find n).map (fun _ => ⟨n, inferDtype cs, cs⟩) := by
  cases df with
  | mk cols =>
    induction cols with
    | nil => rfl
    | cons c rest ih =>
      simp only [DataFrame.set, DataFrame.find, List.map_cons, List.find?_cons] at ih ⊢
      by_cases hc : c.name = n
      · simp [if_pos hc, hc]
      · simp only [if_neg hc]
        simp only [show (decide (c.name = n)) = false from decide_eq_false hc]
        simpa using ih

theorem find_name (df : DataFrame) (n : String) (col : Column) (h : df.find n = some col) :
    col.name = n := by
  have := List.find?_some h
  simpa using this

theorem find_isSome_iff (df : DataFrame) (n : String) :
    (df.find n).isSome = true ↔ n ∈ df.colNames := by
  simp only [DataFrame.find, List.find?_isSome, DataFrame.colNames, List.mem_map]
  constructor
  · rintro ⟨c, hc, hp⟩
    exact ⟨c, hc, by simpa using hp⟩
  · rintro ⟨c, hc, hp⟩
    exact ⟨c, hc, by simpa using hp⟩

theorem find_none_of_notMem (df : DataFrame) (n : String) (h : n ∉ df.colNames) :
    df.find n = none := by
  by_contra hne
  have : (df.find n).isSome = true := by
    cases hfind : df.find n with
    | none => exact absurd hfind hne
    | some c => simp
  exact h ((find_isSome_iff df n).mp this)

theorem mem_of_find_some (df : DataFrame) (n : String) (col : Column)
    (h : df.find n = some col) : n ∈ df.colNames := by
  apply (find_isSome_iff df n).mp
  simp [h]

/-! ## Masking-stage lemmas -/

theorem inferDtype_maskCells (l : List Value) : inferDtype (l.map maskCell) = .objectD := by
  cases l with
  | nil => rfl
  | cons v vs => simp [inferDtype, maskCell, Value.isNum]

theorem mask_colNames (columns : List String) :
    ∀ df : DataFrame, (mask_data df columns).1.colNames = df.colNames := by
  induction columns with
  | nil => intro df; rfl
  | cons d rest ih =>
    intro df
    cases hf : df.find d with
    | none => simpa [mask_data, hf] using ih df
    | some col =>
      simp only [mask_data, hf]
      rw [ih, colNames_set]

theorem mask_find_notMem (columns : List String) :
    ∀ (df : DataFrame) (c : String), c ∉ columns →
      (mask_data df columns).1.find c = df.find c := by
  induction columns with
  | nil => intro df c _; rfl
  | cons d rest ih =>
    intro df c hc
    have hcd : c ≠ d := fun h => hc (h ▸ List.mem_cons_self d rest)
    have hcrest : c ∉ rest := fun h => hc (List.mem_cons_of_mem d h)
    cases hf : df.find d with
    | none => simpa [mask_data, hf] using ih df c hcrest
    | some col =>
      simp only [mask_data, hf]
      rw [ih _ c hcrest, find_set_ne _ _ _ _ hcd]

theorem mask_find_none (columns : List String) :
    ∀ (df : DataFrame) (c : String), df.find c = none →
      (mask_data df columns).1.find c = none := by
  induction columns with
  | nil => intro df c h; exact h
  | cons d rest ih =>
    intro df c hc
    cases hf : df.find d with
    | none => simpa [mask_data, hf] using ih df c hc
    | some col =>
      simp only [mask_data, hf]
      apply ih
      by_cases hcd : c = d
      · rw [hcd] at hc; rw [hc] at hf; cases hf
      · rw [find_set_ne _ _ _ _ hcd]; exact hc

theorem mask_masked (columns : List String) :
    ∀ (df : DataFrame) (c : String) (col : Column), columns.Nodup → c ∈ columns →
      df.find c = some col →
      (mask_data df columns).1.find c = some ⟨c, .objectD, col.cells.map maskCell⟩ := by
  induction columns with
  | nil => intro df c col _ hmem _; cases hmem
  | cons d rest ih =>
    intro df c col hnd hmem hf
    have hnd1 : d ∉ rest := (List.nodup_cons.mp hnd).1
    have hnd2 : rest.Nodup := (List.nodup_cons.mp hnd).2
    by_cases hcd : c = d
    · subst hcd
      simp only [mask_data, hf]
      rw [mask_find_notMem rest _ c hnd1, find_set_self, hf]
      simp [inferDtype_maskCells]
    · have hcrest : c ∈ rest := by
        cases List.mem_cons.mp hmem with
        | inl h => exact absurd h hcd
        | inr h => exact h
      cases hd : df.find d with
      | none => simpa [mask_data, hd] using ih df c col hnd2 hcrest hf
      | some cold =>
        simp only [mask_data, hd]
        apply ih _ c col hnd2 hcrest
        rw [find_set_ne _ _ _ _ hcd]; exact hf

theorem mask_objectD (columns : List String) :
    ∀ (df : DataFrame) (c : String) (col : Column), c ∈ columns → df.find c = some col →
      ∃ cells1, (mask_data df columns).1.find c = some ⟨c, .objectD, cells1⟩ ∧
        cells1.length = col.cells.length := by
  induction columns with
  | nil => intro df c col hmem _; cases hmem
  | cons d rest ih =>
    intro df c col hmem hf
    by_cases hcd : c = d
    · subst hcd
      simp only [mask_data, hf]
      have hset : (df.set c (col.cells.map maskCell)).find c =
          some ⟨c, .objectD, col.cells.map maskCell⟩ := by
        rw [find_set_self, hf]; simp [inferDtype_maskCells]
      by_cases hcrest : c ∈ rest
      · obtain ⟨cells1, h1, h2⟩ := ih _ c _ hcrest hset
        exact ⟨cells1, h1, by simpa using h2⟩
      · exact ⟨col.cells.map maskCell, by rw [mask_find_notMem rest _ c hcrest]; exact hset,
          by simp⟩
    · have hcrest : c ∈ rest := by
        cases List.mem_cons.mp hmem with
        | inl h => exact absurd h hcd
        | inr h => exact h
      cases hd : df.find d with
      | none => simpa [mask_data, hd] using ih df c col hcrest hf
      | some cold =>
        simp only [mask_data, hd]
        apply ih _ c col hcrest
        rw [find_set_ne _ _ _ _ hcd]; exact hf

theorem maskOutcome (columns : List String) (df : DataFrame) (name : String)
    (hnd : columns.Nodup) :
    (mask_data df columns).1.find name = df.find name ∨
      ∃ col, df.find name = some col ∧
        (mask_data df columns).1.find name = some ⟨name, .objectD, col.cells.map maskCell⟩ := by
  by_cases hmem : name ∈ columns
  · cases hf : df.find name with
    | none => left; rw [mask_find_none _ _ _ hf]

    | some col => right; exact ⟨col, rfl, mask_masked _ _ _ _ hnd hmem hf⟩
  · left; exact mask_find_notMem _ _ _ hmem

theorem mask_msg_missing (columns : List String) :
    ∀ (df : DataFrame) (c : String), c ∈ columns → df.find c = none →
      (s!"Error hashing column {c}: " ++ "KeyError") ∈ (mask_data df columns).2 := by
  induction columns with
  | nil => intro df c hmem _; cases hmem
  | cons d rest ih =>
    intro df c hmem hf
    by_cases hcd : c = d
    · subst hcd
      simp [mask_data, hf]
    · have hcrest : c ∈ rest := by
        cases List.mem_cons.mp hmem with
        | inl h => exact absurd h hcd
        | inr h => exact h
      cases hd : df.find d with
      | none =>
        simp only [mask_data, hd]
        exact List.mem_cons_of_mem _ (ih df c hcrest hf)
      | some cold =>
        simp only [mask_data, hd]
        apply ih _ c hcrest
        rw [find_set_ne _ _ _ _ hcd]; exact hf

/-! ## Noising-stage lemmas -/

theorem add_noise_ok_pos (v : Value) (epsilon : Rat) (rng : Rng) (hε : 0 < epsilon)
    (hv : v.isNum = true) :
    add_noise v epsilon rng =
      (.ok (.vFloat (v.toRat + (sensitivity / epsilon) * rng.stream rng.pos)), rng.next) := by
  have h0 : ¬epsilon = 0 := fun h => absurd (h ▸ hε) (lt_irrefl 0)
  have hscale : ¬(sensitivity / epsilon < 0) := by
    have : 0 < sensitivity / epsilon := div_pos (by norm_num [sensitivity]) hε
    linarith
  cases v with
  | vInt n => simp [add_noise, h0, hscale, Value.toRat]
  | vFloat q => simp [add_noise, h0, hscale, Value.toRat]
  | vStr s => simp [Value.isNum] at hv

theorem add_noise_ok_char (v : Value) (epsilon : Rat) (rng : Rng) (v1 : Value) (rng1 : Rng)
    (h : add_noise v epsilon rng = (.ok v1, rng1)) :
    v1 = .vFloat (v.toRat + (sensitivity / epsilon) * rng.stream rng.pos) ∧ rng1 = rng.next := by
  by_cases h0 : epsilon = 0
  · simp [add_noise, h0] at h
  · by_cases hscale : sensitivity / epsilon < 0
    · simp [add_noise, h0, hscale] at h
    · cases v with
      | vInt n =>
        simp only [add_noise, if_neg h0, if_neg hscale, Prod.mk.injEq, Except.ok.injEq] at h
        exact ⟨by rw [← h.1]; simp [Value.toRat], h.2.symm⟩
      | vFloat q =>
        simp only [add_noise, if_neg h0, if_neg hscale, Prod.mk.injEq, Except.ok.injEq] at h
        exact ⟨by rw [← h.1]; simp [Value.toRat], h.2.symm⟩
      | vStr s => simp [add_noise, h0, hscale] at h

theorem add_noise_rng (v : Value) (epsilon : Rat) (rng : Rng) :
    (add_noise v epsilon rng).2 = rng ∨ (add_noise v epsilon rng).2 = rng.next := by
  by_cases h0 : epsilon = 0
  · left; simp [add_noise, h0]
  · by_cases hscale : sensitivity / epsilon < 0
    · left; simp [add_noise, h0, hscale]
    · cases v <;> right <;> simp [add_noise, h0, hscale]

theorem add_noise_nonpos (v : Value) (epsilon : Rat) (rng : Rng) (h : epsilon ≤ 0) :
    add_noise v epsilon rng =
      (.error (if epsilon = 0 then .zeroDivisionError else .valueError "scale < 0"), rng) := by
  by_cases h0 : epsilon = 0
  · simp [add_noise, h0]
  · have hneg : epsilon < 0 := lt_of_le_of_ne h h0
    have hscale : sensitivity / epsilon < 0 :=
      div_neg_of_pos_of_neg (by norm_num [sensitivity]) hneg
    simp [add_noise, h0, hscale]

theorem applyNoise_ok_pos (epsilon : Rat) (hε : 0 < epsilon) :
    ∀ (cells : List Value) (rng : Rng), (∀ v ∈ cells, v.isNum = true) →
      applyNoise epsilon cells rng =
        (.ok (noisedFrom epsilon rng.stream rng.pos cells),
          ⟨rng.stream, rng.pos + cells.length⟩) := by
  intro cells
  induction cells with
  | nil =>
    intro rng _
    show (Except.ok [], rng) = _
    simp [noisedFrom]
  | cons v vs ih =>
    intro rng h
    have hv : v.isNum = true := h v (List.mem_cons_self v vs)
    have hvs : ∀ w ∈ vs, w.isNum = true := fun w hw => h w (List.mem_cons_of_mem v hw)
    simp only [applyNoise]
    rw [add_noise_ok_pos v epsilon rng hε hv]
    simp only [ih rng.next hvs]
    have harith : rng.pos + 1 + vs.length = rng.pos + (vs.length + 1) := by omega
    simp [noisedFrom, Rng.next, harith]

theorem applyNoise_ok_char (epsilon : Rat) :
    ∀ (cells : List Value) (rng : Rng) (cells1 : List Value) (rng1 : Rng),
      applyNoise epsilon cells rng = (.ok cells1, rng1) →
      cells1 = noisedFrom epsilon rng.stream rng.pos cells ∧ rng1.stream = rng.stream := by
  intro cells
  induction cells with
  | nil =>
    intro rng cells1 rng1 h
    obtain ⟨h1, h2⟩ := Prod.mk.injEq .. ▸ h
    constructor
    · simpa [noisedFrom] using (Except.ok.injEq .. ▸ h1).symm ▸ rfl
    · rw [← h2]
  | cons v vs ih =>
    intro rng cells1 rng1 h
    simp only [applyNoise] at h
    rcases ha : add_noise v epsilon rng with ⟨res, rngA⟩
    cases res with
    | error e => rw [ha] at h; simp at h
    | ok v1 =>
      rw [ha] at h
      simp only [] at h
      rcases hb : applyNoise epsilon vs rngA with ⟨res2, rngB⟩
      cases res2 with
      | error e => rw [hb] at h; simp at h
      | ok vs1 =>
        rw [hb] at h
        simp only [Prod.mk.injEq, Except.ok.injEq] at h
        obtain ⟨hcells, hrng⟩ := h
        obtain ⟨hv1, hrngA⟩ := add_noise_ok_char v epsilon rng v1 rngA ha
        obtain ⟨hvs1, hstream⟩ := ih rngA vs1 rngB hb
        subst hrngA
        constructor
        · rw [← hcells, hv1, hvs1]
          simp [noisedFrom, Rng.next]
        · rw [← hrng, hstream]; rfl

theorem applyNoise_stream (epsilon : Rat) :
    ∀ (cells : List Value) (rng : Rng),
      (applyNoise epsilon cells rng).2.stream = rng.stream := by
  intro cells
  induction cells with
  | nil => intro rng; rfl
  | cons v vs ih =>
    intro rng
    simp only [applyNoise]
    rcases ha : add_noise v epsilon rng with ⟨res, rngA⟩
    have hstreamA : rngA.stream = rng.stream := by
      rcases add_noise_rng v epsilon rng with h | h
      · rw [ha] at h; rw [show rngA = rng from h]
      · rw [ha] at h; rw [show rngA = rng.next from h]; rfl
    cases res with
    | error e => exact hstreamA
    | ok v1 =>
      rcases hb : applyNoise epsilon vs rngA with ⟨res2, rngB⟩
      have hstreamB : rngB.stream = rngA.stream := by
        have := ih rngA
        rw [hb] at this
        exact this
      simp only []
      rw [hb]
      cases res2 with
      | error e => exact hstreamB.trans hstreamA
      | ok vs1 => exact hstreamB.trans hstreamA

theorem applyNoise_nonpos (epsilon : Rat) (h : epsilon ≤ 0) (v : Value) (vs : List Value)
    (rng : Rng) :
    applyNoise epsilon (v :: vs) rng =
      (.error (if epsilon = 0 then .zeroDivisionError else .valueError "scale < 0"), rng) := by
  simp only [applyNoise]
  rw [add_noise_nonpos v epsilon rng h]

theorem create_noisy_ok_pos (df : DataFrame) (c : String) (col : Column) (epsilon : Rat)
    (rng : Rng) (hε : 0 < epsilon) (hf : df.find c = some col)
    (hnum : ∀ v ∈ col.cells, v.isNum = true) :
    create_noisy_data df c epsilon rng =
      (df.set c (noisedFrom epsilon rng.stream rng.pos col.cells),
        ⟨rng.stream, rng.pos + col.cells.length⟩, []) := by
  simp only [create_noisy_data, hf]
  rw [applyNoise_ok_pos epsilon hε col.cells rng hnum]

theorem create_noisy_err (df : DataFrame) (c : String) (col : Column) (epsilon : Rat)
    (rng : Rng) (e : PyErr) (rng1 : Rng) (hf : df.find c = some col)
    (hap : applyNoise epsilon col.cells rng = (.error e, rng1)) :
    create_noisy_data df c epsilon rng =
      (df, rng1, [s!"Error applying noise to column {c}: " ++ reprStr e]) := by
  simp only [create_noisy_data, hf]
  rw [hap]

theorem create_noisy_colNames (df : DataFrame) (c : String) (epsilon : Rat) (rng : Rng) :
    (create_noisy_data df c epsilon rng).1.colNames = df.colNames := by
  cases hf : df.find c with
  | none => simp [create_noisy_data, hf]
  | some col =>
    simp only [create_noisy_data, hf]
    rcases hap : applyNoise epsilon col.cells rng with ⟨res, rng1⟩
    cases res with
    | error e => rfl
    | ok cells1 => simp only []; exact colNames_set _ _ _

theorem create_noisy_find_ne (df : DataFrame) (c m : String) (epsilon : Rat) (rng : Rng)
    (h : m ≠ c) : (create_noisy_data df c epsilon rng).1.find m = df.find m := by
  cases hf : df.find c with
  | none => simp [create_noisy_data, hf]
  | some col =>
    simp only [create_noisy_data, hf]
    rcases hap : applyNoise epsilon col.cells rng with ⟨res, rng1⟩
    cases res with
    | error e => rfl
    | ok cells1 => simp only []; exact find_set_ne _ _ _ _ h

theorem create_noisy_stream (df : DataFrame) (c : String) (epsilon : Rat) (rng : Rng) :
    (create_noisy_data df c epsilon rng).2.1.stream = rng.stream := by
  cases hf : df.find c with
  | none => simp [create_noisy_data, hf]
  | some col =>
    simp only [create_noisy_data, hf]
    rcases hap : applyNoise epsilon col.cells rng with ⟨res, rng1⟩
    have h1 : rng1.stream = rng.stream := by
      have := applyNoise_stream epsilon col.cells rng
      rw [hap] at this
      exact this
    cases res with
    | error e => exact h1
    | ok cells1 => exact h1

theorem create_noisy_cells_nonpos (df : DataFrame) (c : String) (epsilon : Rat) (rng : Rng)
    (h : epsilon ≤ 0) (name : String) :
    ((create_noisy_data df c epsilon rng).1.find name).map Column.cells =
      (df.find name).map Column.cells := by
  cases hf : df.find c with
  | none => simp [create_noisy_data, hf]
  | some col =>
    simp only [create_noisy_data, hf]
    cases hcc : col.cells with
    | nil =>
      simp only [applyNoise]
      by_cases hnc : name = c
      · subst hnc
        rw [find_set_self, hf]
        simp [hcc]
      · rw [find_set_ne _ _ _ _ hnc]
    | cons v vs =>
      rw [applyNoise_nonpos epsilon h v vs rng]

/-! ## Noise-loop lemmas -/

theorem noiseLoop_ok (epsilon : Rat) :
    ∀ (names : List String) (df : DataFrame) (rng : Rng) (msgs : List String),
      (∀ n ∈ names, n ∈ df.colNames) →
      ∃ out, noiseLoop names df epsilon rng msgs = .ok out := by
  intro names
  induction names with
  | nil => intro df rng msgs _; exact ⟨(df, rng, msgs), rfl⟩
  | cons c rest ih =>
    intro df rng msgs h
    have hc : c ∈ df.colNames := h c (List.mem_cons_self c rest)
    have hrest : ∀ n ∈ rest, n ∈ df.colNames := fun n hn => h n (List.mem_cons_of_mem c hn)
    have hsome : (df.find c).isSome = true := (find_isSome_iff df c).mpr hc
    obtain ⟨col, hcol⟩ := Option.isSome_iff_exists.mp hsome
    have hnum : is_numeric_column df c = .ok col.dtype.isNumeric := by
      simp [is_numeric_column, hcol]
    cases hb : col.dtype.isNumeric with
    | true =>
      have hrest1 : ∀ n ∈ rest, n ∈ (create_noisy_data df c epsilon rng).1.colNames := by
        intro n hn
        rw [create_noisy_colNames]
        exact hrest n hn
      obtain ⟨out, hout⟩ := ih (create_noisy_data df c epsilon rng).1
        (create_noisy_data df c epsilon rng).2.1
        (msgs ++ (create_noisy_data df c epsilon rng).2.2) hrest1
      refine ⟨out, ?_⟩
      simp only [noiseLoop, hnum, hb]
      exact hout
    | false =>
      obtain ⟨out, hout⟩ := ih df rng msgs hrest
      refine ⟨out, ?_⟩
      simp only [noiseLoop, hnum, hb]
      exact hout

theorem noiseLoop_colNames (epsilon : Rat) :
    ∀ (names : List String) (df : DataFrame) (rng : Rng) (msgs : List String)
      (out : DataFrame × Rng × List String),
      noiseLoop names df epsilon rng msgs = .ok out → out.1.colNames = df.colNames := by
  intro names
  induction names with
  | nil =>
    intro df rng msgs out h
    simp only [noiseLoop, Except.ok.injEq] at h
    rw [← h]
  | cons c rest ih =>
    intro df rng msgs out h
    simp only [noiseLoop] at h
    cases hnum : is_numeric_column df c with
    | error e => rw [hnum] at h; simp at h
    | ok b =>
      rw [hnum] at h
      cases b with
      | true =>
        simp only [] at h
        have := ih _ _ _ _ h
        rw [this, create_noisy_colNames]
      | false =>
        simp only [] at h
        exact ih _ _ _ _ h

theorem noiseLoop_find_notMem (epsilon : Rat) :
    ∀ (names : List String) (df : DataFrame) (rng : Rng) (msgs : List String)
      (out : DataFrame × Rng × List String) (c : String),
      c ∉ names → noiseLoop names df epsilon rng msgs = .ok out →
      out.1.find c = df.find c := by
  intro names
  induction names with
  | nil =>
    intro df rng msgs out c _ h
    simp only [noiseLoop, Except.ok.injEq] at h
    rw [← h]
  | cons d rest ih =>
    intro df rng msgs out c hc h
    have hcd : c ≠ d := fun hh => hc (hh ▸ List.mem_cons_self d rest)
    have hcrest : c ∉ rest := fun hh => hc (List.mem_cons_of_mem d hh)
    simp only [noiseLoop] at h
    cases hnum : is_numeric_column df d with
    | error e => rw [hnum] at h; simp at h
    | ok b =>
      rw [hnum] at h
      cases b with
      | true =>
        simp only [] at h
        rw [ih _ _ _ _ c hcrest h]
        exact create_noisy_find_ne _ _ _ _ _ hcd
      | false =>
        simp only [] at h
        exact ih _ _ _ _ c hcrest h

theorem noiseLoop_preserve_nonnum (epsilon : Rat) :
    ∀ (names : List String) (df : DataFrame) (rng : Rng) (msgs : List String)
      (out : DataFrame × Rng × List String) (c : String) (col : Column),
      df.find c = some col → col.dtype.isNumeric = false →
      noiseLoop names df epsilon rng msgs = .ok out →
      out.1.find c = some col := by
  intro names
  induction names with
  | nil =>
    intro df rng msgs out c col hf _ h
    simp only [noiseLoop, Except.ok.injEq] at h
    rw [← h]; exact hf
  | cons d rest ih =>
    intro df rng msgs out c col hf hnn h
    simp only [noiseLoop] at h
    cases hnum : is_numeric_column df d with
    | error e => rw [hnum] at h; simp at h
    | ok b =>
      rw [hnum] at h
      cases b with
      | true =>
        simp only [] at h
        have hcd : c ≠ d := by
          intro hh
          subst hh
          rw [show is_numeric_column df c = .ok col.dtype.isNumeric by
            simp [is_numeric_column, hf]] at hnum
          rw [hnn] at hnum
          cases hnum
        apply ih _ _ _ _ c col _ hnn h
        rw [create_noisy_find_ne _ _ _ _ _ hcd]
        exact hf
      | false =>
        simp only [] at h
        exact ih _ _ _ _ c col hf hnn h

theorem noiseLoop_stream (epsilon : Rat) :
    ∀ (names : List String) (df : DataFrame) (rng : Rng) (msgs : List String)
      (out : DataFrame × Rng × List String),
      noiseLoop names df epsilon rng msgs = .ok out → out.2.1.stream = rng.stream := by
  intro names
  induction names with
  | nil =>
    intro df rng msgs out h
    simp only [noiseLoop, Except.ok.injEq] at h
    rw [← h]
  | cons d rest ih =>
    intro df rng msgs out h
    simp only [noiseLoop] at h
    cases hnum : is_numeric_column df d with
    | error e => rw [hnum] at h; simp at h
    | ok b =>
      rw [hnum] at h
      cases b with
      | true =>
        simp only [] at h
        rw [ih _ _ _ _ h]
        exact create_noisy_stream _ _ _ _
      | false =>
        simp only [] at h
        exact ih _ _ _ _ h

theorem noiseOutcome (epsilon : Rat) :
    ∀ (names : List String) (df : DataFrame) (rng : Rng) (msgs : List String)
      (out : DataFrame × Rng × List String),
      names.Nodup → noiseLoop names df epsilon rng msgs = .ok out →
      ∀ name, out.1.find name = df.find name ∨
        ∃ col p, df.find name = some col ∧
          out.1.find name = some ⟨name,
            inferDtype (noisedFrom epsilon rng.stream p col.cells),
            noisedFrom epsilon rng.stream p col.cells⟩ := by
  intro names
  induction names with
  | nil =>
    intro df rng msgs out _ h name
    simp only [noiseLoop, Except.ok.injEq] at h
    left; rw [← h]
  | cons d rest ih =>
    intro df rng msgs out hnd h name
    have hnd1 : d ∉ rest := (List.nodup_cons.mp hnd).1
    have hnd2 : rest.Nodup := (List.nodup_cons.mp hnd).2
    simp only [noiseLoop] at h
    cases hnum : is_numeric_column df d with
    | error e => rw [hnum] at h; simp at h
    | ok b =>
      rw [hnum] at h
      cases b with
      | false =>
        simp only [] at h
        exact ih _ _ _ _ hnd2 h name
      | true =>
        simp only [] at h
        cases hfd : df.find d with
        | none => rw [is_numeric_column, hfd] at hnum; cases hnum
        | some cold =>
          rcases hap : applyNoise epsilon cold.cells rng with ⟨res, rng1⟩
          have hstream1 : rng1.stream = rng.stream := by
            have := applyNoise_stream epsilon cold.cells rng
            rw [hap] at this
            exact this
          cases res with
          | error e =>
            rw [create_noisy_err df d cold epsilon rng e rng1 hfd hap] at h
            rcases ih _ _ _ _ hnd2 h name with h1 | ⟨col, p, h1, h2⟩
            · left; exact h1
            · right; exact ⟨col, p, h1, by rw [← hstream1]; exact h2⟩
          | ok cells1 =>
            obtain ⟨hcells1, _⟩ := applyNoise_ok_char epsilon cold.cells rng cells1 rng1 hap
            have hcn : create_noisy_data df d epsilon rng = (df.set d cells1, rng1, []) := by
              simp only [create_noisy_data, hfd]
              rw [hap]
            rw [hcn] at h
            by_cases hname : name = d
            · subst hname
              right
              refine ⟨cold, rng.pos, hfd, ?_⟩
              rw [noiseLoop_find_notMem epsilon rest _ _ _ _ name hnd1 h]
              rw [find_set_self, hfd, hcells1]
              rfl
            · rcases ih _ _ _ _ hnd2 h name with h1 | ⟨col, p, h1, h2⟩
              · rw [find_set_ne _ _ _ _ hname] at h1
                left; exact h1
              · rw [find_set_ne _ _ _ _ hname] at h1
                right; exact ⟨col, p, h1, by rw [← hstream1]; exact h2⟩

theorem noiseLoop_cells_nonpos (epsilon : Rat) (hε : epsilon ≤ 0) :
    ∀ (names : List String) (df : DataFrame) (rng : Rng) (msgs : List String)
      (out : DataFrame × Rng × List String),
      noiseLoop names df epsilon rng msgs = .ok out →
      ∀ name, (out.1.find name).map Column.cells = (df.find name).map Column.cells := by
  intro names
  induction names with
  | nil =>
    intro df rng msgs out h name
    simp only [noiseLoop, Except.ok.injEq] at h
    rw [← h]
  | cons d rest ih =>
    intro df rng msgs out h name
    simp only [noiseLoop] at h
    cases hnum : is_numeric_column df d with
    | error e => rw [hnum] at h; simp at h
    | ok b =>
      rw [hnum] at h
      cases b with
      | false =>
        simp only [] at h
        exact ih _ _ _ _ h name
      | true =>
        simp only [] at h
        rw [ih _ _ _ _ h name]
        exact create_noisy_cells_nonpos df d epsilon rng hε name

/-! ## Pipeline-level helpers -/

theorem noisedFrom_length (epsilon : Rat) (stream : Nat → Rat) :
    ∀ (p : Nat) (cells : List Value),
      (noisedFrom epsilon stream p cells).length = cells.length := by
  intro p cells
  induction cells generalizing p with
  | nil => rfl
  | cons v vs ih => simp [noisedFrom, ih]

theorem noisedFrom_get (epsilon : Rat) (stream : Nat → Rat) :
    ∀ (cells : List Value) (p i : Nat) (h1 : i < cells.length)
      (h2 : i < (noisedFrom epsilon stream p cells).length),
      (noisedFrom epsilon stream p cells).get ⟨i, h2⟩ =
        .vFloat ((cells.get ⟨i, h1⟩).toRat + (sensitivity / epsilon) * stream (p + i)) := by
  intro cells
  induction cells with
  | nil => intro p i h1 _; cases h1
  | cons v vs ih =>
    intro p i h1 h2
    cases i with
    | zero => simp [noisedFrom]
    | succ j =>
      have hj : j < vs.length := by simpa using h1
      have hj2 : j < (noisedFrom epsilon stream (p + 1) vs).length := by
        rw [noisedFrom_length]; exact hj
      have := ih (p + 1) j hj hj2
      simp only [noisedFrom, List.get_cons_succ]
      rw [this]
      have : p + 1 + j = p + (j + 1) := by omega
      rw [this]

theorem anonymize_ok_write (env : String → ReadOutcome) (input output : String)
    (columns : List String) (epsilon : Rat) (rng : Rng) (df : DataFrame)
    (noised : DataFrame × Rng × List String)
    (henv : env input = .ok df)
    (hn : noiseLoop (mask_data df columns).1.colNames (mask_data df columns).1
      epsilon rng [] = .ok noised) :
    anonymize_csv env input output columns epsilon rng none =
      .ok ⟨(mask_data df columns).2 ++ noised.2.2 ++
          [s!"Anonymized data written to {output}"],
        some (output, noised.1), noised.2.1⟩ := by
  simp only [anonymize_csv, henv]
  rw [hn]

theorem anonymize_written (env : String → ReadOutcome) (input output : String)
    (columns : List String) (epsilon : Rat) (rng : Rng) (writeErr : Option String)
    (r : RunResult) (out2 : String) (df2 : DataFrame)
    (hrun : anonymize_csv env input output columns epsilon rng writeErr = .ok r)
    (hw : r.written = some (out2, df2)) :
    ∃ df noised, env input = .ok df ∧
      noiseLoop (mask_data df columns).1.colNames (mask_data df columns).1
        epsilon rng [] = .ok noised ∧
      out2 = output ∧ df2 = noised.1 := by
  cases henv : env input with
  | notFound =>
    simp only [anonymize_csv, henv, Except.ok.injEq] at hrun
    rw [← hrun] at hw
    simp at hw
  | parseError =>
    simp only [anonymize_csv, henv, Except.ok.injEq] at hrun
    rw [← hrun] at hw
    simp at hw
  | otherError m =>
    simp only [anonymize_csv, henv, Except.ok.injEq] at hrun
    rw [← hrun] at hw
    simp at hw
  | ok df =>
    simp only [anonymize_csv, henv] at hrun
    cases hn : noiseLoop (mask_data df columns).1.colNames (mask_data df columns).1
        epsilon rng [] with
    | error e => rw [hn] at hrun; cases hrun
    | ok noised =>
      rw [hn] at hrun
      cases writeErr with
      | some m =>
        simp only [Except.ok.injEq] at hrun
        rw [← hrun] at hw
        simp at hw
      | none =>
        simp only [Except.ok.injEq] at hrun
        rw [← hrun] at hw
        simp only [Option.some.injEq, Prod.mk.injEq] at hw
        exact ⟨df, noised, rfl, hn, hw.1.symm, hw.2.symm⟩

/-! ## The claims -/

/-- Claim C1: for every column name in the mask list that exists in the table,
masking replaces every cell's value with the SHA-256 hex digest of the value's
textual representation, and every such digest is a fixed-length 64-character
hexadecimal string regardless of the input value's type. -/
theorem C1_mask_hashes_to_hex (df : DataFrame) (columns : List String) (c : String)
    (col : Column) (hnd : columns.Nodup) (hmem : c ∈ columns)
    (hf : df.find c = some col) :
    (mask_data df columns).1.find c =
      some ⟨c, .objectD, col.cells.map (fun x => .vStr (hash_data (pyStr x)))⟩ ∧
    ∀ x : Value, (hash_data (pyStr x)).length = 64 ∧
      ∀ ch ∈ (hash_data (pyStr x)).data, ch ∈ hexChars := by
  constructor
  · simpa [maskCell] using mask_masked columns df c col hnd hmem hf
  · intro x
    exact ⟨hash_data_length _, hash_data_chars_hex _⟩

/-- Witness for C1 at scenario 1's table, masking `["name"]`. -/
theorem C1_witness :
    (mask_data dfEx ["name"]).1.find "name" =
      some ⟨"name", .objectD,
        [Value.vStr "Alice"].map (fun x => .vStr (hash_data (pyStr x)))⟩ ∧
    ∀ x : Value, (hash_data (pyStr x)).length = 64 ∧
      ∀ ch ∈ (hash_data (pyStr x)).data, ch ∈ hexChars :=
  C1_mask_hashes_to_hex dfEx ["name"] "name" ⟨"name", .objectD, [.vStr "Alice"]⟩
    (by decide) (by decide) rfl

/-- Claim C2: noising a column whose values are numeric replaces each value
`v` with `v + noise`, where the noise of cell `i` is an independent fresh
Laplace draw (stream position `p + i`) scaled by `sensitivity / epsilon`,
with `sensitivity` fixed at `1`; and the pipeline's numeric detection
(`is_numeric_column`) reads the column's dtype, not its values. -/
theorem C2_noise_is_scaled_laplace :
    sensitivity = 1 ∧
    (∀ (df : DataFrame) (column : String) (col : Column) (epsilon : Rat) (rng : Rng),
      0 < epsilon → df.find column = some col → (∀ v ∈ col.cells, v.isNum = true) →
      create_noisy_data df column epsilon rng =
        (df.set column (noisedFrom epsilon rng.stream rng.pos col.cells),
          ⟨rng.stream, rng.pos + col.cells.length⟩, [])) ∧
    (∀ (df : DataFrame) (column : String) (col : Column),
      df.find column = some col →
      is_numeric_column df column = .ok col.dtype.isNumeric) := by
  refine ⟨rfl, ?_, ?_⟩
  · intro df column col epsilon rng hε hf hnum
    exact create_noisy_ok_pos df column col epsilon rng hε hf hnum
  · intro df column col hf
    simp [is_numeric_column, hf]

/-- Witness for C2: noising the `age` column of scenario 1's table. -/
theorem C2_witness :
    create_noisy_data dfEx "age" 1 rngEx =
      (dfEx.set "age" (noisedFrom 1 rngEx.stream rngEx.pos [Value.vInt 30]),
        ⟨rngEx.stream, rngEx.pos + [Value.vInt 30].length⟩, []) :=
  C2_noise_is_scaled_laplace.2.1 dfEx "age" ⟨"age", .intD, [.vInt 30]⟩ 1 rngEx
    (by norm_num) rfl (by decide)

/-- Claim C6: if the input file path does not exist, the run prints exactly
the file-not-found diagnostic, writes no output file, and neither the
masker, the noiser, nor the writer ever runs (the RNG is untouched). -/
theorem C6_file_not_found_aborts (env : String → ReadOutcome) (input output : String)
    (columns : List String) (epsilon : Rat) (rng : Rng) (writeErr : Option String)
    (h : env input = .notFound) :
    anonymize_csv env input output columns epsilon rng writeErr =
      .ok ⟨[s!"Error: The file {input} was not found."], none, rng⟩ := by
  simp [anonymize_csv, h]

/-- Witness for C6 on an empty filesystem. -/
theorem C6_witness :
    anonymize_csv envMissing "data.csv" "out.csv" ["name"] 1 rngEx none =
      .ok ⟨[s!"Error: The file " ++ "data.csv" ++ " was not found."], none, rngEx⟩ :=
  C6_file_not_found_aborts envMissing "data.csv" "out.csv" ["name"] 1 rngEx none rfl

/-- Claim C7: for every input (any read outcome, mask list, epsilon, RNG and
write outcome), the pipeline returns normally: no `PyErr` escapes
`anonymize_csv` as an uncaught exception. -/
theorem C7_no_exception_escapes (env : String → ReadOutcome) (input output : String)
    (columns : List String) (epsilon : Rat) (rng : Rng) (writeErr : Option String) :
    ∃ r, anonymize_csv env input output columns epsilon rng writeErr = .ok r := by
  cases henv : env input with
  | notFound =>
    refine ⟨⟨[s!"Error: The file {input} was not found."], none, rng⟩, ?_⟩
    simp only [anonymize_csv, henv]
  | parseError =>
    refine ⟨⟨["Error: File could not be parsed."], none, rng⟩, ?_⟩
    simp only [anonymize_csv, henv]
  | otherError m =>
    refine ⟨⟨[s!"An unexpected error occurred while reading the file: {m}"], none, rng⟩, ?_⟩
    simp only [anonymize_csv, henv]
  | ok df =>
    obtain ⟨noised, hn⟩ := noiseLoop_ok epsilon (mask_data df columns).1.colNames
      (mask_data df columns).1 rng [] (fun n hn => hn)
    cases writeErr with
    | none => exact ⟨_, anonymize_ok_write env input output columns epsilon rng df noised henv hn⟩
    | some m =>
      refine ⟨⟨(mask_data df columns).2 ++ noised.2.2 ++
          [s!"Error writing to file {output}: {m}"], none, noised.2.1⟩, ?_⟩
      simp only [anonymize_csv, henv]
      rw [hn]

/-- Claim C8: masking is deterministic — `hash_data` is a function of the
input string alone (no salt, no run-dependent state), so equal inputs give
equal digests within and across runs. -/
theorem C8_masking_deterministic (x y : String) (h : x = y) :
    hash_data x = hash_data y := by
  rw [h]

/-- Witness for C8: hashing the same value twice. -/
theorem C8_witness : hash_data "Alice" = hash_data "Alice" :=
  C8_masking_deterministic "Alice" "Alice" rfl

/-- Claim C10: per-column failure is atomic. When noising a column raises
mid-series, the whole table (hence the column) is returned unchanged —
the replacement series is fully computed before assignment; the only
masking failure, a missing column, likewise leaves the table unchanged. -/
theorem C10_column_failure_atomic :
    (∀ (df : DataFrame) (column : String) (col : Column) (epsilon : Rat) (rng : Rng)
      (e : PyErr) (rng1 : Rng), df.find column = some col →
      applyNoise epsilon col.cells rng = (.error e, rng1) →
      (create_noisy_data df column epsilon rng).1 = df) ∧
    (∀ (df : DataFrame) (column : String), df.find column = none →
      (mask_data df [column]).1 = df) := by
  constructor
  · intro df column col epsilon rng e rng1 hf hap
    rw [create_noisy_err df column col epsilon rng e rng1 hf hap]
  · intro df column h
    simp [mask_data, h]

/-- Witness for C10: a zero-epsilon noise failure on `age` and a missing
mask column `ghost`, both leaving the table unchanged. -/
theorem C10_witness :
    (create_noisy_data dfEx "age" 0 rngEx).1 = dfEx ∧
    (mask_data dfEx ["ghost"]).1 = dfEx :=
  ⟨C10_column_failure_atomic.1 dfEx "age" ⟨"age", .intD, [.vInt 30]⟩ 0 rngEx
      .zeroDivisionError rngEx rfl rfl,
    C10_column_failure_atomic.2 dfEx "ghost" rfl⟩

/-- Claim C3: a column in the mask list that exists in the table is never
noised: after masking it has object dtype, the numeric detection on the
post-mask table answers `false`, and the written output still holds exactly
the post-mask cells. -/
theorem C3_masked_never_noised (env : String → ReadOutcome) (input output : String)
    (columns : List String) (epsilon : Rat) (rng : Rng) (df : DataFrame)
    (c : String) (col : Column)
    (henv : env input = .ok df) (hmem : c ∈ columns) (hf : df.find c = some col) :
    ∃ (cells1 : List Value) (r : RunResult) (df2 : DataFrame),
      (mask_data df columns).1.find c = some ⟨c, .objectD, cells1⟩ ∧
      is_numeric_column (mask_data df columns).1 c = .ok false ∧
      anonymize_csv env input output columns epsilon rng none = .ok r ∧
      r.written = some (output, df2) ∧
      df2.find c = some ⟨c, .objectD, cells1⟩ := by
  obtain ⟨cells1, hm, _⟩ := mask_objectD columns df c col hmem hf
  obtain ⟨noised, hn⟩ := noiseLoop_ok epsilon (mask_data df columns).1.colNames
    (mask_data df columns).1 rng [] (fun n h => h)
  have hpres : noised.1.find c = some ⟨c, .objectD, cells1⟩ :=
    noiseLoop_preserve_nonnum epsilon _ _ _ _ _ c ⟨c, .objectD, cells1⟩ hm rfl hn
  refine ⟨cells1,
    ⟨(mask_data df columns).2 ++ noised.2.2 ++ [s!"Anonymized data written to {output}"],
      some (output, noised.1), noised.2.1⟩,
    noised.1, hm, ?_,
    anonymize_ok_write env input output columns epsilon rng df noised henv hn, rfl, hpres⟩
  simp [is_numeric_column, hm, Dtype.isNumeric]

/-- Witness for C3: masking `name` in scenario 1's table. -/
theorem C3_witness :
    ∃ (cells1 : List Value) (r : RunResult) (df2 : DataFrame),
      (mask_data dfEx ["name"]).1.find "name" = some ⟨"name", .objectD, cells1⟩ ∧
      is_numeric_column (mask_data dfEx ["name"]).1 "name" = .ok false ∧
      anonymize_csv envEx "in.csv" "out.csv" ["name"] 1 rngEx none = .ok r ∧
      r.written = some ("out.csv", df2) ∧
      df2.find "name" = some ⟨"name", .objectD, cells1⟩ :=
  C3_masked_never_noised envEx "in.csv" "out.csv" ["name"] 1 rngEx dfEx "name"
    ⟨"name", .objectD, [.vStr "Alice"]⟩ rfl (by decide) rfl

/-- Claim C4: a mask-listed column absent from the table is reported as a
per-column failure, the remaining listed columns are still masked, and the
run completes and writes an output file. -/
theorem C4_missing_column_isolated (env : String → ReadOutcome) (input output : String)
    (columns : List String) (epsilon : Rat) (rng : Rng) (df : DataFrame) (c : String)
    (henv : env input = .ok df) (hmem : c ∈ columns) (habsent : df.find c = none)
    (hnd : columns.Nodup) :
    ∃ r, anonymize_csv env input output columns epsilon rng none = .ok r ∧
      (s!"Error hashing column {c}: " ++ "KeyError") ∈ r.messages ∧
      r.written.isSome = true ∧
      ∀ d col, d ∈ columns → df.find d = some col →
        (mask_data df columns).1.find d = some ⟨d, .objectD, col.cells.map maskCell⟩ := by
  obtain ⟨noised, hn⟩ := noiseLoop_ok epsilon (mask_data df columns).1.colNames
    (mask_data df columns).1 rng [] (fun n h => h)
  refine ⟨⟨(mask_data df columns).2 ++ noised.2.2 ++
      [s!"Anonymized data written to {output}"], some (output, noised.1), noised.2.1⟩,
    anonymize_ok_write env input output columns epsilon rng df noised henv hn, ?_, rfl, ?_⟩
  · exact List.mem_append.mpr (Or.inl (List.mem_append.mpr
      (Or.inl (mask_msg_missing columns df c hmem habsent))))
  · intro d col hd hfd
    exact mask_masked columns df d col hnd hd hfd

/-- Witness for C4: masking `["ghost", "name"]` where `ghost` is absent. -/
theorem C4_witness :
    ∃ r, anonymize_csv envEx "in.csv" "out.csv" ["ghost", "name"] 1 rngEx none = .ok r ∧
      (s!"Error hashing column " ++ "ghost" ++ ": " ++ "KeyError") ∈ r.messages ∧
      r.written.isSome = true ∧
      ∀ d col, d ∈ ["ghost", "name"] → dfEx.find d = some col →
        (mask_data dfEx ["ghost", "name"]).1.find d =
          some ⟨d, .objectD, col.cells.map maskCell⟩ :=
  C4_missing_column_isolated envEx "in.csv" "out.csv" ["ghost", "name"] 1 rngEx dfEx
    "ghost" rfl (by decide) rfl (by decide)

/-- Claim C9: `main` performs no positivity validation of epsilon: with a
zero or negative epsilon the run proceeds past argument parsing, completes
and writes output, while at noising time every `add_noise` call fails with a
degenerate scale (division by zero, or a negative scale rejected by the
sampler), leaving every column's cells unchanged from the post-mask table. -/
theorem C9_epsilon_not_validated (env : String → ReadOutcome) (input output : String)
    (columns : List String) (epsilon : Rat) (rng : Rng) (df : DataFrame)
    (hε : epsilon ≤ 0) (henv : env input = .ok df) :
    ∃ r df2, main env ⟨input, output, columns, epsilon⟩ rng none = .ok r ∧
      r.written = some (output, df2) ∧
      (∀ name, (df2.find name).map Column.cells =
        ((mask_data df columns).1.find name).map Column.cells) ∧
      (∀ (v : Value) (rng1 : Rng), add_noise v epsilon rng1 =
        (.error (if epsilon = 0 then PyErr.zeroDivisionError
          else .valueError "scale < 0"), rng1)) := by
  obtain ⟨noised, hn⟩ := noiseLoop_ok epsilon (mask_data df columns).1.colNames
    (mask_data df columns).1 rng [] (fun n h => h)
  refine ⟨⟨(mask_data df columns).2 ++ noised.2.2 ++
      [s!"Anonymized data written to {output}"], some (output, noised.1), noised.2.1⟩,
    noised.1,
    anonymize_ok_write env input output columns epsilon rng df noised henv hn, rfl, ?_, ?_⟩
  · intro name
    exact noiseLoop_cells_nonpos epsilon hε _ _ _ _ _ hn name
  · intro v rng1
    exact add_noise_nonpos v epsilon rng1 hε

/-- Witness for C9: a run with epsilon zero on scenario 1's table. -/
theorem C9_witness :
    ∃ r df2, main envEx ⟨"in.csv", "out.csv", ["name"], 0⟩ rngEx none = .ok r ∧
      r.written = some ("out.csv", df2) ∧
      (∀ name, (df2.find name).map Column.cells =
        ((mask_data dfEx ["name"]).1.find name).map Column.cells) ∧
      (∀ (v : Value) (rng1 : Rng), add_noise v 0 rng1 =
        (.error (if (0 : Rat) = 0 then PyErr.zeroDivisionError
          else .valueError "scale < 0"), rng1)) :=
  C9_epsilon_not_validated envEx "in.csv" "out.csv" ["name"] 0 rngEx dfEx
    (by norm_num) rfl

/-- Claim C5: for every successfully loaded table, the written output table
has the input's column names in the same order, every column keeps its row
count, and each output cell at row `i` derives from the input cell at the
same row `i` (unchanged, masked, or numerically perturbed) — masking and
noising change cell values only. -/
theorem C5_shape_preserved (env : String → ReadOutcome) (input output : String)
    (columns : List String) (epsilon : Rat) (rng : Rng) (writeErr : Option String)
    (df : DataFrame) (r : RunResult) (out2 : String) (df2 : DataFrame)
    (henv : env input = .ok df) (hndc : columns.Nodup) (hndn : df.colNames.Nodup)
    (hrun : anonymize_csv env input output columns epsilon rng writeErr = .ok r)
    (hw : r.written = some (out2, df2)) :
    out2 = output ∧ df2.colNames = df.colNames ∧
    ∀ (name : String) (col col2 : Column), df.find name = some col →
      df2.find name = some col2 →
      col2.cells.length = col.cells.length ∧
      ∀ (i : Nat) (h1 : i < col.cells.length) (h2 : i < col2.cells.length),
        cellFrom (col.cells.get ⟨i, h1⟩) (col2.cells.get ⟨i, h2⟩) := by
  obtain ⟨df', noised, henv', hn, hout, hdf2⟩ :=
    anonymize_written env input output columns epsilon rng writeErr r out2 df2 hrun hw
  have hdfeq : df = df' := ReadOutcome.ok.inj (henv.symm.trans henv')
  subst hdfeq
  have hnd1 : (mask_data df columns).1.colNames.Nodup := by
    rw [mask_colNames]; exact hndn
  refine ⟨hout, ?_, ?_⟩
  · rw [hdf2, noiseLoop_colNames epsilon _ _ _ _ _ hn, mask_colNames]
  · intro name col col2 hfind hfind2
    rcases maskOutcome columns df name hndc with hmo | ⟨colm, hfm, hmo⟩
    · rcases noiseOutcome epsilon _ _ _ _ _ hnd1 hn name with hno | ⟨coln, p, hfn, hno⟩
      · have hsame : df2.find name = some col := by
          rw [hdf2, hno, hmo, hfind]
        have hc : col2 = col := Option.some.inj (hfind2.symm.trans hsame)
        subst hc
        exact ⟨rfl, fun i h1 h2 => Or.inl rfl⟩
      · have hcoln : coln = col := Option.some.inj (hfn.symm.trans (hmo.trans hfind))
        subst hcoln
        have hdf2find : df2.find name =
            some ⟨name, inferDtype (noisedFrom epsilon rng.stream p coln.cells),
              noisedFrom epsilon rng.stream p coln.cells⟩ := by
          rw [hdf2]; exact hno
        have hcol2 : col2 = ⟨name, inferDtype (noisedFrom epsilon rng.stream p coln.cells),
            noisedFrom epsilon rng.stream p coln.cells⟩ :=
          Option.some.inj (hfind2.symm.trans hdf2find)
        subst hcol2
        refine ⟨noisedFrom_length epsilon rng.stream p coln.cells, ?_⟩
        intro i h1 h2
        right; right
        exact ⟨(sensitivity / epsilon) * rng.stream (p + i),
          noisedFrom_get epsilon rng.stream coln.cells p i h1 h2⟩
    · have hcolm : colm = col := Option.some.inj (hfm.symm.trans hfind)
      subst hcolm
      have hpres : noised.1.find name =
          some ⟨name, .objectD, colm.cells.map maskCell⟩ :=
        noiseLoop_preserve_nonnum epsilon _ _ _ _ _ name
          ⟨name, .objectD, colm.cells.map maskCell⟩ hmo rfl hn
      have hdf2find : df2.find name = some ⟨name, .objectD, colm.cells.map maskCell⟩ := by
        rw [hdf2]; exact hpres
      have hcol2 : col2 = ⟨name, .objectD, colm.cells.map maskCell⟩ :=
        Option.some.inj (hfind2.symm.trans hdf2find)
      subst hcol2
      refine ⟨List.length_map _ _, ?_⟩
      intro i h1 h2
      right; left
      simp [List.get_eq_getElem, List.getElem_map]

/-- Witness for C5: a complete run on the one-column table `dfSmall`. -/
theorem C5_witness :
    "out.csv" = "out.csv" ∧
    (DataFrame.mk [⟨"id", .floatD, [.vFloat 1]⟩]).colNames = dfSmall.colNames ∧
    ∀ (name : String) (col col2 : Column), dfSmall.find name = some col →
      (DataFrame.mk [⟨"id", .floatD, [.vFloat 1]⟩]).find name = some col2 →
      col2.cells.length = col.cells.length ∧
      ∀ (i : Nat) (h1 : i < col.cells.length) (h2 : i < col2.cells.length),
        cellFrom (col.cells.get ⟨i, h1⟩) (col2.cells.get ⟨i, h2⟩) :=
  C5_shape_preserved envSmall "in.csv" "out.csv" [] 1 rngEx none dfSmall
    ⟨[s!"Anonymized data written to " ++ "out.csv"],
      some ("out.csv", ⟨[⟨"id", .floatD, [.vFloat 1]⟩]⟩), ⟨rngEx.stream, 1⟩⟩
    "out.csv" ⟨[⟨"id", .floatD, [.vFloat 1]⟩]⟩
    rfl (by decide) (by decide) (by with_unfolding_all rfl) rfl

end Anonymizer
